import Mathlib

/-!
Verification development for the stockmarketAI signal-to-position engine.

The definitions below are shallow embeddings of the Python source files
`backend/confidence_calculator.py`, `backend/percentile_sizer.py`,
`backend/sector_mapper.py`, `backend/trailing_stop_manager.py`,
`backend/trade_manager.py` and `backend/backtester.py`.

Modelling conventions:
* Python floats are idealised as rationals (`ℚ`); Python ints as `ℕ`.
* Python `round(x, n)` (round-half-to-even) is modelled by `pyround1` /
  `pyround2` below via `roundHalfEven`.
* Python strings that only carry display text (f-string messages, emoji)
  are dropped; strings used as data ("OPEN", "TARGET_1", size tiers,
  sectors, regimes, sentiment labels) are kept as `String`.
* External effects (price feeds, file persistence, wall-clock dates) are
  passed explicitly as parameters or dropped when no claim mentions them.
-/

/-- Python's `round` to an integer: round half to even (banker's rounding),
exact on rationals. -/
def roundHalfEven (x : ℚ) : ℤ :=
  let f := ⌊x⌋
  let r := x - (f : ℚ)
  if r < 1/2 then f
  else if 1/2 < r then f + 1
  else if f % 2 = 0 then f else f + 1

/-- Python `round(x, 1)`. -/
def pyround1 (x : ℚ) : ℚ := (roundHalfEven (10 * x) : ℚ) / 10

/-- Python `round(x, 2)`. -/
def pyround2 (x : ℚ) : ℚ := (roundHalfEven (100 * x) : ℚ) / 100

/-- Character-list version of Python's startswith check (used to build the
substring test for `'Extreme Greed' in fg_label`). -/
def leadMatch : List Char → List Char → Bool
  | [], _ => true
  | _ :: _, [] => false
  | a :: as, b :: bs => a = b && leadMatch as bs

/-- Does `needle` occur as a contiguous run inside `hay`? -/
def hasSub (needle : List Char) : List Char → Bool
  | [] => leadMatch needle []
  | c :: t => leadMatch needle (c :: t) || hasSub needle t

/-- Python's `needle in hay` on strings (substring containment). -/
def strContains (hay needle : String) : Bool :=
  hasSub needle.toList hay.toList

/-! ## confidence_calculator.py -/

/-- The `spx_trend` dict consumed by `calculate_confidence`: the two keys it
reads, each possibly absent (`.get` with defaults in the source). -/
structure SpxTrend where
  bullish : Option Bool
  distance_pct : Option ℚ
  deriving DecidableEq

/-- The `fearGreed` sub-dict of `sentiment_data`: the `label` key
(`fg.get('label', '')` in the source). -/
structure FearGreed where
  label : String
  deriving DecidableEq

/-- The `sentiment_data` dict: its `fearGreed` key, possibly absent/falsy. -/
structure Sentiment where
  fearGreed : Option FearGreed
  deriving DecidableEq

/-- A risk-factor entry. The source appends formatted display strings; the
embedding keeps the constructor plus the numeric datum that the source
interpolates into the string. -/
inductive RiskFactor where
  | highVix (v : ℚ)
  | elevatedVix (v : ℚ)
  | moderateVix (v : ℚ)
  | bearMarket (distance : ℚ)
  | bearishRegime
  | weakMacro (s : ℚ)
  | extremeGreed
  deriving DecidableEq

/-- VIX adjustment branch of `calculate_confidence` (source lines 43-55). -/
def vix_adjustment : Option ℚ → ℚ × List RiskFactor
  | none => (0, [])
  | some v =>
    if 30 < v then (-25, [.highVix v])
    else if 25 < v then (-15, [.elevatedVix v])
    else if 20 < v then (-5, [.moderateVix v])
    else if v < 15 then (10, [])
    else (0, [])

/-- SPX-trend adjustment branch (source lines 57-69). `spx_trend.get('bullish', True)`
is falsy exactly when the key is present and False; `spx_trend.get('bullish', False)`
is truthy exactly when the key is present and True. An empty dict is treated as
absent (`if spx_trend:`). -/
def spx_adjustment : Option SpxTrend → ℚ × List RiskFactor
  | none => (0, [])
  | some t =>
    if t.bullish.getD true = false then
      (-20, [.bearMarket (t.distance_pct.getD 0)])
    else if t.bullish.getD false = true then
      (if 5 < t.distance_pct.getD 0 then (15, []) else (5, []))
    else (0, [])

/-- Macro-regime adjustment branch (source lines 71-77). `if macro_regime:` is
falsy for both None and the empty string. -/
def regime_adjustment : Option String → ℚ × List RiskFactor
  | none => (0, [])
  | some r =>
    if r = "" then (0, [])
    else if r = "bearish" then (-15, [.bearishRegime])
    else if r = "bullish" then (10, [])
    else (0, [])

/-- Macro-score adjustment branch (source lines 79-85). -/
def macro_adjustment : Option ℚ → ℚ × List RiskFactor
  | none => (0, [])
  | some m =>
    if m < 4 then (-10, [.weakMacro m])
    else if 7 < m then (10, [])
    else (0, [])

/-- Sentiment (Fear & Greed) adjustment branch (source lines 87-96).
`'Extreme Greed' in fg_label` is a substring test. -/
def sentiment_adjustment : Option Sentiment → ℚ × List RiskFactor
  | none => (0, [])
  | some sd =>
    match sd.fearGreed with
    | none => (0, [])
    | some fg =>
      if strContains fg.label "Extreme Greed" then (-10, [.extremeGreed])
      else if strContains fg.label "Extreme Fear" then (5, [])
      else (0, [])

/-- Result dict of `calculate_confidence` (the `emoji` display field is
dropped). -/
structure ConfResult where
  confidence : ℚ
  level : String
  risk_factors : List RiskFactor
  recommended_size : String
  base_confidence : ℚ
  adjustments : ℚ
  deriving DecidableEq

/-- `calculate_confidence` (confidence_calculator.py lines 9-133). -/
def calculate_confidence (base_score : ℚ) (vix_value : Option ℚ)
    (spx_trend : Option SpxTrend) (macro_regime : Option String)
    (macro_score : Option ℚ) (sentiment_data : Option Sentiment) : ConfResult :=
  let base_confidence := max 0 (min 100 (((base_score + 10) / 20) * 100))
  let a1 := vix_adjustment vix_value
  let a2 := spx_adjustment spx_trend
  let a3 := regime_adjustment macro_regime
  let a4 := macro_adjustment macro_score
  let a5 := sentiment_adjustment sentiment_data
  let adjustments := a1.1 + a2.1 + a3.1 + a4.1 + a5.1
  let risk_factors := a1.2 ++ a2.2 ++ a3.2 ++ a4.2 ++ a5.2
  let final_confidence := max 0 (min 100 (base_confidence + adjustments))
  let lvl_size : String × String :=
    if 80 ≤ final_confidence then ("STRONG_BUY", "full")
    else if 65 ≤ final_confidence then ("BUY", "full")
    else if 50 ≤ final_confidence then ("WATCH", "half")
    else if 35 ≤ final_confidence then ("CAUTION", "quarter")
    else ("AVOID", "none")
  { confidence := pyround1 final_confidence
    level := lvl_size.1
    risk_factors := risk_factors
    recommended_size := lvl_size.2
    base_confidence := pyround1 base_confidence
    adjustments := pyround1 adjustments }

/-! ## percentile_sizer.py

The score history is the in-memory `score_history` dict: one entry per day.
Dates are modelled as integer day numbers, so `timedelta(days=w)` is
subtraction. Only the per-day raw score lists matter to `get_percentile`
(the stored mean/median/std aggregates are diagnostics). -/

/-- `PercentileSizer._get_window_scores` (lines 119-137): all scores whose
date lies in `[end_date - window_days, end_date]`, in history order. -/
def get_window_scores (window_days : ℕ) (score_history : List (ℤ × List ℚ))
    (end_date : ℤ) : List ℚ :=
  ((score_history.filter
      (fun p => decide (end_date - (window_days : ℤ) ≤ p.1 ∧ p.1 ≤ end_date))).map
    (fun p => p.2)).flatten

/-- `PercentileSizer.get_percentile` (lines 92-117). -/
def get_percentile (window_days : ℕ) (score_history : List (ℤ × List ℚ))
    (score : ℚ) (date : ℤ) : ℚ :=
  let window_scores := get_window_scores window_days score_history date
  if window_scores.length < 10 then
    min 100 (max 0 ((score / 10) * 100))
  else
    ((window_scores.countP (fun x => decide (x < score)) : ℚ) /
      (window_scores.length : ℚ)) * 100

/-- Modelled from the spec's words for claim C6, to be compared with
`get_percentile`: the fraction of window scores strictly below the score,
scaled by 100, with fallback `clamp(score/10, 0, 1) × 100` when the window
holds fewer than 10 points. -/
def percentile_claim (window_days : ℕ) (score_history : List (ℤ × List ℚ))
    (score : ℚ) (date : ℤ) : ℚ :=
  let w := get_window_scores window_days score_history date
  if w.length < 10 then
    (min 1 (max 0 (score / 10))) * 100
  else
    ((w.countP (fun x => decide (x < score)) : ℚ) / (w.length : ℚ)) * 100

/-! ## sector_mapper.py -/

/-- The static `SECTOR_MAP` dict (sector_mapper.py lines 10-70). The source
dict literal lists the key `SBB-B` twice with the same value; a dict keeps
one entry. -/
def sectorPairs : List (String × String) :=
  [("SEB-A", "Financials"), ("SHB-A", "Financials"), ("SWED-A", "Financials"),
   ("SBB-B", "Real Estate"),
   ("ABB", "Industrials"), ("ALFA", "Industrials"), ("ASSA-B", "Industrials"),
   ("ATCO-A", "Industrials"), ("SAND", "Industrials"), ("SKF-B", "Industrials"),
   ("VOLV-B", "Industrials"),
   ("ERIC-B", "Technology"), ("HEXA-B", "Technology"), ("TEL2-B", "Technology"),
   ("EVO", "Consumer Discretionary"), ("HM-B", "Consumer Discretionary"),
   ("ESSITY-B", "Consumer Staples"),
   ("AZN", "Healthcare"), ("GETI-B", "Healthcare"),
   ("BOL", "Materials"), ("SCA-B", "Materials"),
   ("KINV-B", "Communication Services"),
   ("NIBE-B", "Energy"),
   ("SECU-B", "Industrials"),
   ("SKA-B", "Industrials"), ("SWMA", "Industrials"),
   ("INVE-B", "Financials"),
   ("ELUX-B", "Consumer Discretionary"),
   ("NDA-SE", "Industrials")]

/-- `SectorMapper.get_sector`: `self.sector_map.get(ticker, 'Unknown')`. -/
def get_sector (ticker : String) : String :=
  match sectorPairs.lookup ticker with
  | some s => s
  | none => "Unknown"

/-- The `size_rank` dict used in `apply_top_n_override` and
`calculate_position_size`; `.get(s, 0)` for unknown keys. -/
def size_rank (s : String) : ℕ :=
  if s = "none" then 0
  else if s = "quarter" then 1
  else if s = "half" then 2
  else if s = "full" then 3
  else 0

/-- One record of the `ranked_stocks` list consumed by
`apply_top_n_override`: the fields the function reads and writes. A fresh
scanner record has no `top_n_override` / `override_reason` keys, modelled
as `false` / `none`. -/
structure Stock where
  ticker : String
  score : ℚ
  recommended_size : String
  top_n_override : Bool
  override_reason : Option String
  deriving DecidableEq

/-- Loop body of `apply_top_n_override` (sector_mapper.py lines 118-141).
The extra result component is the final `top_n_applied` counter; `counts`
is the `sector_counts` dict as a total function (absent key = 0). Reaching
`top_n` applied overrides breaks the loop, leaving the rest of the list
untouched; a stock of a sector at the cap is skipped without counting
toward `top_n`. -/
def apply_top_n_aux (max_per_sector top_n : ℕ) (min_size : String) :
    List Stock → (String → ℕ) → ℕ → List Stock × ℕ
  | [], _, applied => ([], applied)
  | s :: rest, counts, applied =>
    if top_n ≤ applied then (s :: rest, applied)
    else
      let sector := get_sector s.ticker
      if max_per_sector ≤ counts sector then
        let r := apply_top_n_aux max_per_sector top_n min_size rest counts applied
        (s :: r.1, r.2)
      else
        let s' :=
          if size_rank s.recommended_size < size_rank min_size then
            { s with recommended_size := min_size, top_n_override := true,
                     override_reason := some ("Top-" ++ toString (applied + 1) ++ " signal") }
          else s
        let counts' := fun x => if x = sector then counts x + 1 else counts x
        let r := apply_top_n_aux max_per_sector top_n min_size rest counts' (applied + 1)
        (s' :: r.1, r.2)

/-- `SectorMapper.apply_top_n_override` (lines 98-142): the record values of
the list it returns. -/
def apply_top_n_override (max_per_sector : ℕ) (ranked_stocks : List Stock)
    (top_n : ℕ) (min_size : String) : List Stock :=
  (apply_top_n_aux max_per_sector top_n min_size ranked_stocks (fun _ => 0) 0).1

/-- The record values seen through the caller's `ranked_stocks` list after
`apply_top_n_override` returns. The source takes a shallow `list.copy()`,
so `updated_stocks[i]` and `ranked_stocks[i]` are the same dict object and
every field assignment `updated_stocks[i][...] = ...` is visible through
the caller's list: after the call the caller's records hold exactly the
returned record values. -/
def ranked_after_call (max_per_sector : ℕ) (ranked_stocks : List Stock)
    (top_n : ℕ) (min_size : String) : List Stock :=
  apply_top_n_override max_per_sector ranked_stocks top_n min_size

/-- Does this record carry the `top_n_override` mark and belong to the given
sector? (The quantity capped by the sector-diversification rule.) -/
def marked_in (sec : String) (s : Stock) : Bool :=
  s.top_n_override && (get_sector s.ticker == sec)

/-! ## trailing_stop_manager.py -/

/-- `TrailingStopManager.calculate_chandelier_stop` (lines 30-56). -/
def calculate_chandelier_stop (atr_multiplier : ℚ) (highest_high current_atr : ℚ)
    (current_stop : Option ℚ) : ℚ :=
  let new_stop := highest_high - current_atr * atr_multiplier
  match current_stop with
  | some c => max new_stop c
  | none => new_stop

/-- The position fields read and written by `TrailingStopManager.update_stop`
for a position that already carries a stop. -/
structure TrailState where
  highest_price : ℚ
  stop_loss : ℚ
  deriving DecidableEq

/-- `TrailingStopManager.update_stop` (lines 58-92). -/
def update_stop (atr_multiplier : ℚ) (position : TrailState)
    (current_price current_atr : ℚ) : TrailState :=
  let hp := if position.highest_price < current_price then current_price
            else position.highest_price
  let new_stop := calculate_chandelier_stop atr_multiplier hp current_atr
    (some position.stop_loss)
  { highest_price := hp, stop_loss := new_stop }

/-- One stop update on a position: either a trailing-stop recompute tick
(`TrailingStopManager.update_stop`) or an explicit stop move with the
no-lowering guard of `TradeManager.update_stop_loss` (trade_manager.py
lines 234-239) applied to this position. -/
inductive StopOp where
  | trailTick (price atr : ℚ)
  | setStop (new_stop : ℚ)
  deriving DecidableEq

/-- Apply one stop update. -/
def apply_stop_op (atr_multiplier : ℚ) (s : TrailState) : StopOp → TrailState
  | .trailTick price atr => update_stop atr_multiplier s price atr
  | .setStop ns => if ns < s.stop_loss then s else { s with stop_loss := ns }

/-! ## trade_manager.py

`Position` keeps a `targets` dict that may or may not contain the keys
`target_1`/`target_2`/`target_3`; each entry holds `price` and
`gain_percent`. `entry_date` (wall clock) and `market` are dropped; `status`
stays a `String` exactly as in the source ("OPEN" / "PARTIAL" / "CLOSED"). -/

/-- One `targets[...]` entry. -/
structure TMTarget where
  price : ℚ
  gain_percent : ℚ
  deriving DecidableEq

/-- One exit record appended by `TradeManager.execute_exit` (the wall-clock
`date` field is dropped). -/
structure TMExit where
  shares : ℕ
  price : ℚ
  etype : String
  profit_per_share : ℚ
  profit_percent : ℚ
  deriving DecidableEq

/-- The `Position` class of trade_manager.py (lines 10-54). -/
structure TMPosition where
  ticker : String
  entry_price : ℚ
  initial_shares : ℕ
  current_shares : ℕ
  stop_loss : ℚ
  target_1 : Option TMTarget
  target_2 : Option TMTarget
  target_3 : Option TMTarget
  exits : List TMExit
  status : String
  deriving DecidableEq

/-- One notification produced by `TradeManager.check_positions`. Only the
data fields are kept: the `type` tag, the current price, the `new_stop`
field (present on TARGET_1 only) and the rounded loss/gain percent
(present on STOP_LOSS and TARGET_3). Display strings are dropped. -/
structure TMNotification where
  ntype : String
  price : ℚ
  new_stop : Option ℚ
  pct : Option ℚ
  deriving DecidableEq

/-- The per-position body of `TradeManager.check_positions` (lines 100-171)
at a given current price: at most one notification per position, chosen by
the stop-loss check followed by the target_1/2/3 `elif` chain. Entering a
target branch whose price test fails produces no notification and skips
the later branches. -/
def check_position (position : TMPosition) (current_price : ℚ) :
    Option TMNotification :=
  if position.status = "CLOSED" then none
  else if current_price ≤ position.stop_loss then
    some { ntype := "STOP_LOSS", price := current_price, new_stop := none,
           pct := some (pyround2 (((current_price - position.entry_price) /
                    position.entry_price) * 100)) }
  else if position.target_1.isSome ∧ position.current_shares = position.initial_shares then
    if (position.target_1.getD ⟨0, 0⟩).price ≤ current_price then
      some { ntype := "TARGET_1", price := current_price,
             new_stop := some position.entry_price, pct := none }
    else none
  else if position.target_2.isSome ∧
      position.current_shares = position.initial_shares * 2 / 3 then
    if (position.target_2.getD ⟨0, 0⟩).price ≤ current_price then
      some { ntype := "TARGET_2", price := current_price, new_stop := none,
             pct := none }
    else none
  else if position.target_3.isSome ∧
      position.current_shares = position.initial_shares / 3 then
    if (position.target_3.getD ⟨0, 0⟩).price ≤ current_price then
      some { ntype := "TARGET_3", price := current_price, new_stop := none,
             pct := some (pyround2 (((current_price - position.entry_price) /
                      position.entry_price) * 100)) }
    else none
  else none

/-- `TradeManager.check_positions` (lines 91-173) over the whole ledger:
`price_of` stands for the external `get_current_price` feed; a `None` (or
falsy `0`) price skips the position. -/
def check_positions (positions : List TMPosition)
    (price_of : String → Option ℚ) : List TMNotification :=
  positions.foldr
    (fun p acc =>
      match price_of p.ticker with
      | none => acc
      | some cp => if cp = 0 then acc else
          match check_position p cp with
          | some n => n :: acc
          | none => acc)
    []

/-- The `position.ticker == ticker and position.status != "CLOSED"` match
used by `execute_exit` and `update_stop_loss`. -/
def matches_open (ticker : String) (p : TMPosition) : Bool :=
  p.ticker == ticker && p.status != "CLOSED"

/-- `TradeManager.update_stop_loss` (lines 221-245): walks the ledger; at
the first open position with the ticker, a lower `new_stop` is rejected
(returns False with nothing changed), otherwise the stop is assigned.
Result: (returned Bool, ledger afterwards). -/
def update_stop_loss (positions : List TMPosition) (ticker : String)
    (new_stop : ℚ) : Bool × List TMPosition :=
  match positions with
  | [] => (false, [])
  | p :: rest =>
    if matches_open ticker p then
      if new_stop < p.stop_loss then (false, p :: rest)
      else (true, { p with stop_loss := new_stop } :: rest)
    else
      let r := update_stop_loss rest ticker new_stop
      (r.1, p :: r.2)

/-- `TradeManager.execute_exit` (lines 175-219): at the first open position
with the ticker, selling more shares than held is rejected (returns False
with nothing changed); otherwise the exit record is appended, the share
count reduced, and the status set to CLOSED or PARTIAL. -/
def execute_exit (positions : List TMPosition) (ticker : String)
    (shares : ℕ) (exit_price : ℚ) (exit_type : String) : Bool × List TMPosition :=
  match positions with
  | [] => (false, [])
  | p :: rest =>
    if matches_open ticker p then
      if p.current_shares < shares then (false, p :: rest)
      else
        let record : TMExit :=
          { shares := shares, price := exit_price, etype := exit_type,
            profit_per_share := pyround2 (exit_price - p.entry_price),
            profit_percent :=
              pyround2 (((exit_price - p.entry_price) / p.entry_price) * 100) }
        let cs := p.current_shares - shares
        (true, { p with exits := p.exits ++ [record], current_shares := cs,
                        status := if cs = 0 then "CLOSED" else "PARTIAL" } :: rest)
    else
      let r := execute_exit rest ticker shares exit_price exit_type
      (r.1, p :: r.2)

/-! ## backtester.py (exit half of the simulation loop)

The claims about the backtester concern `_check_exits` / `_execute_exit`
(lines 331-408): the behaviour of an already-open position under a price
tick. Entry scoring, data fetching and the metrics block are outside every
claim and are not embedded. -/

/-- The `self.position` dict of `Backtester` (the fields `_check_exits`
reads; signal/score/confidence metadata dropped). -/
structure BTPosition where
  entry_price : ℚ
  shares : ℕ
  initial_shares : ℕ
  stop_loss : ℚ
  target_1 : ℚ
  target_2 : ℚ
  target_3 : ℚ
  deriving DecidableEq

/-- One trade record appended by `Backtester._execute_exit` (dates and
signal metadata dropped). -/
structure BTTrade where
  shares : ℕ
  entry_price : ℚ
  exit_price : ℚ
  pnl : ℚ
  pnl_percent : ℚ
  reason : String
  deriving DecidableEq

/-- The backtester state touched by the exit path. -/
structure BTState where
  position : Option BTPosition
  capital : ℚ
  trades : List BTTrade
  deriving DecidableEq

/-- The decision chain of `Backtester._check_exits` (lines 336-362): which
exit, if any, fires on this tick — (shares_to_sell, exit_reason,
exit_price). `int(initial_shares / 3)` is `initial_shares / 3` on `ℕ`;
the Target-2 quantity guard compares against the real `initial*2/3`. -/
def exit_decision (slippage : ℚ) (position : BTPosition) (price : ℚ) :
    Option (ℕ × String × ℚ) :=
  if price ≤ position.stop_loss then
    some (position.shares, "STOP_LOSS", price * (1 - slippage))
  else if position.target_3 ≤ price ∧ 0 < position.shares then
    some (position.shares, "TARGET_3", price * (1 - slippage))
  else if position.target_2 ≤ price ∧
      ((position.initial_shares : ℚ) * 2 / 3 ≤ (position.shares : ℚ)) then
    some (position.initial_shares / 3, "TARGET_2", price * (1 - slippage))
  else if position.target_1 ≤ price ∧ position.shares = position.initial_shares then
    some (position.initial_shares / 3, "TARGET_1", price * (1 - slippage))
  else none

/-- `Backtester._execute_exit` (lines 367-403): proceeds credited net of
commission, one trade recorded, shares reduced, position cleared when
empty. -/
def bt_execute_exit (commission : ℚ) (st : BTState) (position : BTPosition)
    (price : ℚ) (shares : ℕ) (reason : String) : BTState :=
  let proceeds := (shares : ℚ) * price * (1 - commission)
  let cost_basis := (shares : ℚ) * position.entry_price
  let pnl := proceeds - cost_basis
  let trade : BTTrade :=
    { shares := shares, entry_price := position.entry_price, exit_price := price,
      pnl := pnl, pnl_percent := (pnl / cost_basis) * 100, reason := reason }
  let shares' := position.shares - shares
  { position := if shares' = 0 then none else some { position with shares := shares' },
    capital := st.capital + proceeds,
    trades := st.trades ++ [trade] }

/-- `Backtester._check_exits` (lines 331-365): evaluate the decision chain
and execute the chosen exit when it sells a positive quantity. -/
def bt_check_exits (slippage commission : ℚ) (st : BTState) (price : ℚ) : BTState :=
  match st.position with
  | none => st
  | some position =>
    match exit_decision slippage position price with
    | some (n, reason, exit_price) =>
      if 0 < n then bt_execute_exit commission st position exit_price n reason
      else st
    | none => st

/-- The exit phase of the `run` loop over a price path while a position is
held: each tick applies `_check_exits` (entry evaluation is outside the
claims). -/
def bt_apply_ticks (slippage commission : ℚ) (st : BTState)
    (prices : List ℚ) : BTState :=
  prices.foldl (bt_check_exits slippage commission) st

/-! ## Concrete sample inputs used by witnesses and counterexamples -/

/-- The position of the spec's worked scenario: 300 shares, entry 278,
stop 270, targets 290/300/320 (the default test data of trade_manager.py). -/
def samplePos : BTPosition :=
  { entry_price := 278, shares := 300, initial_shares := 300, stop_loss := 270,
    target_1 := 290, target_2 := 300, target_3 := 320 }

/-- Backtester state holding `samplePos` and no completed trades. -/
def sampleState : BTState := { position := some samplePos, capital := 0, trades := [] }

/-- The same scenario position as a TradeManager ledger entry. -/
def sampleTMPos : TMPosition :=
  { ticker := "VOLVO-B", entry_price := 278, initial_shares := 300,
    current_shares := 300, stop_loss := 270,
    target_1 := some ⟨290, 4⟩, target_2 := some ⟨300, 15/2⟩, target_3 := some ⟨320, 15⟩,
    exits := [], status := "OPEN" }

/-- A position whose initial quantity is not a multiple of 3, after its
Target-1 tranche (4 / 3 = 1 share) has been sold: 3 shares remain. -/
def oddThirdsPos : TMPosition :=
  { ticker := "ODD", entry_price := 100, initial_shares := 4,
    current_shares := 3, stop_loss := 1,
    target_1 := some ⟨110, 10⟩, target_2 := some ⟨120, 20⟩, target_3 := some ⟨130, 30⟩,
    exits := [], status := "PARTIAL" }

/-- A fresh scanner record (Industrials, quarter size, no override yet). -/
def volvStock : Stock :=
  { ticker := "VOLV-B", score := 8, recommended_size := "quarter",
    top_n_override := false, override_reason := none }

/-- The ranked test universe of sector_mapper.py's demo: three Industrials
followed by a Technology and a Financials name, all at quarter size. -/
def rankedFive : List Stock :=
  [volvStock,
   { ticker := "ABB", score := 8, recommended_size := "quarter",
     top_n_override := false, override_reason := none },
   { ticker := "SKF-B", score := 7, recommended_size := "quarter",
     top_n_override := false, override_reason := none },
   { ticker := "ERIC-B", score := 7, recommended_size := "quarter",
     top_n_override := false, override_reason := none },
   { ticker := "SEB-A", score := 7, recommended_size := "quarter",
     top_n_override := false, override_reason := none }]

/-! # Theorems -/

/-! ## Helper lemmas -/

/-- Per-operation monotonicity: no stop update lowers the stop. -/
lemma apply_stop_op_mono (m : ℚ) (s : TrailState) (op : StopOp) :
    s.stop_loss ≤ (apply_stop_op m s op).stop_loss := by
  cases op with
  | trailTick p a =>
    simp only [apply_stop_op, update_stop, calculate_chandelier_stop]
    exact le_max_right _ _
  | setStop ns =>
    by_cases h : ns < s.stop_loss
    · simp [apply_stop_op, h]
    · simp only [apply_stop_op, if_neg h]
      exact le_of_not_lt h

/-- Fold version of per-operation stop monotonicity. -/
lemma foldl_stop_mono (m : ℚ) :
    ∀ (ops : List StopOp) (s : TrailState),
      s.stop_loss ≤ (ops.foldl (apply_stop_op m) s).stop_loss := by
  intro ops
  induction ops with
  | nil => intro s; exact le_refl _
  | cons op rest ih =>
    intro s
    exact le_trans (apply_stop_op_mono m s op) (ih (apply_stop_op m s op))

/-- `update_stop_loss` never lowers any position's stop in the ledger. -/
lemma update_stop_loss_mono (ticker : String) (ns : ℚ) :
    ∀ ps : List TMPosition,
      List.Forall₂ (fun a b => a.stop_loss ≤ b.stop_loss) ps
        (update_stop_loss ps ticker ns).2 := by
  intro ps
  induction ps with
  | nil => simp [update_stop_loss]
  | cons p rest ih =>
    by_cases hm : matches_open ticker p
    · by_cases hlow : ns < p.stop_loss
      · simp only [update_stop_loss, hm, if_true, hlow]
        exact List.Forall₂.cons (le_refl _)
          (List.forall₂_same.mpr (fun x _ => le_refl _))
      · simp only [update_stop_loss, hm, if_true, hlow, if_false]
        exact List.Forall₂.cons (le_of_not_lt hlow)
          (List.forall₂_same.mpr (fun x _ => le_refl _))
    · simp only [update_stop_loss, hm]
      exact List.Forall₂.cons (le_refl _) ih

/-! ## Claim C3 -/

/-- Claim C3: for every position and every sequence of stop updates
(trailing-stop Chandelier recomputes and explicit stop moves), the
position's stop_loss never decreases; likewise `update_stop_loss` never
lowers any stop in the TradeManager ledger. -/
theorem stop_loss_monotone (atr_multiplier : ℚ) (s : TrailState)
    (ops : List StopOp) (positions : List TMPosition) (ticker : String)
    (new_stop : ℚ) :
    s.stop_loss ≤ (ops.foldl (apply_stop_op atr_multiplier) s).stop_loss
    ∧ List.Forall₂ (fun a b => a.stop_loss ≤ b.stop_loss) positions
        (update_stop_loss positions ticker new_stop).2 :=
  ⟨foldl_stop_mono atr_multiplier ops s, update_stop_loss_mono ticker new_stop positions⟩

/-! ## Claim C6 -/

/-- Claim C6: `get_percentile` returns the count of window scores strictly
below the score divided by the window size, times 100, and falls back to
`clamp(score/10, 0, 1) × 100` whenever the window holds fewer than 10
points — exactly the spec's formula `percentile_claim`. -/
theorem get_percentile_matches_spec (window_days : ℕ)
    (score_history : List (ℤ × List ℚ)) (score : ℚ) (date : ℤ) :
    get_percentile window_days score_history score date
      = percentile_claim window_days score_history score date := by
  by_cases h : (get_window_scores window_days score_history date).length < 10
  · simp only [get_percentile, percentile_claim, if_pos h]
    rw [min_mul_of_nonneg _ _ (by norm_num : (0:ℚ) ≤ 100),
        max_mul_of_nonneg _ _ (by norm_num : (0:ℚ) ≤ 100)]
    norm_num
  · simp only [get_percentile, percentile_claim, if_neg h]

/-! ## Claim C8 -/

/-- Claim C8: invariant-violating operations are rejected without touching
the ledger: a stop-loss update strictly below the current stop returns
failure with the ledger unchanged, and an exit for more shares than held
returns failure with the ledger (shares, exits, status) unchanged. -/
theorem reject_preserves_ledger (positions : List TMPosition) (ticker : String)
    (new_stop : ℚ) (shares : ℕ) (exit_price : ℚ) (exit_type : String)
    (p : TMPosition)
    (hfind : positions.find? (matches_open ticker) = some p)
    (hlow : new_stop < p.stop_loss)
    (hover : p.current_shares < shares) :
    update_stop_loss positions ticker new_stop = (false, positions)
    ∧ execute_exit positions ticker shares exit_price exit_type = (false, positions) := by
  induction positions with
  | nil => simp at hfind
  | cons q rest ih =>
    by_cases hm : matches_open ticker q
    · rw [List.find?_cons_of_pos _ hm] at hfind
      obtain rfl : q = p := by injection hfind
      constructor
      · simp [update_stop_loss, hm, hlow]
      · simp [execute_exit, hm, hover, Nat.not_le.mpr hover]
    · rw [List.find?_cons_of_neg _ hm] at hfind
      obtain ⟨ih1, ih2⟩ := ih hfind
      constructor
      · simp [update_stop_loss, hm, ih1]
      · simp [execute_exit, hm, ih2]

/-- Witness for C8 at the scenario ledger: moving the stop from 270 down to
260 fails and changes nothing; selling 400 of 300 held shares fails and
changes nothing. -/
theorem reject_preserves_ledger_witness :
    update_stop_loss [sampleTMPos] "VOLVO-B" 260 = (false, [sampleTMPos])
    ∧ execute_exit [sampleTMPos] "VOLVO-B" 400 280 "MANUAL" = (false, [sampleTMPos]) :=
  reject_preserves_ledger [sampleTMPos] "VOLVO-B" 260 400 280 "MANUAL" sampleTMPos
    rfl (by decide) (by decide)

/-! ## Claim C10 -/

/-- Claim C10: in `TradeManager.check_positions`, when `initial_shares` is
not a multiple of 3 and the Target-1 tranche of `initial_shares / 3` shares
has been sold (so `current_shares = initial_shares - initial_shares / 3`),
the Target-2 guard `current_shares == initial_shares * 2 // 3` is false and
the Target-3 guard `current_shares == initial_shares // 3` is false, so for
every price no TARGET_2 or TARGET_3 notification can be produced: the
staged-thirds path beyond Target 1 needs `3 ∣ initial_shares`. -/
theorem thirds_blocked_when_not_divisible (position : TMPosition) (price : ℚ)
    (hdvd : ¬ (3 ∣ position.initial_shares))
    (hcur : position.current_shares
      = position.initial_shares - position.initial_shares / 3) :
    Option.all (fun n => decide (n.ntype ≠ "TARGET_2" ∧ n.ntype ≠ "TARGET_3"))
      (check_position position price) = true := by
  have h2 : position.current_shares ≠ position.initial_shares * 2 / 3 := by omega
  have h3 : position.current_shares ≠ position.initial_shares / 3 := by omega
  unfold check_position
  simp only [h2, h3, and_false, if_false]
  split_ifs <;> rfl

/-- Witness for C10: a PARTIAL position with 4 initial shares, 3 remaining
after its Target-1 tranche of 1 share, produces no TARGET_2 / TARGET_3
notification at price 125 (above both targets). -/
theorem thirds_blocked_when_not_divisible_witness :
    Option.all (fun n => decide (n.ntype ≠ "TARGET_2" ∧ n.ntype ≠ "TARGET_3"))
      (check_position oddThirdsPos 125) = true :=
  thirds_blocked_when_not_divisible oddThirdsPos 125 (by decide) (by decide)

/-! ## Claim C9 -/

/-- Claim C9 counterexample: `apply_top_n_override` mutates the caller's
records. After the call on a single fresh quarter-size Industrials
candidate, the record seen through the caller's `ranked_candidates` list
(same dict objects, via the shallow `list.copy()`) no longer holds its
pre-call field values: its size was raised to half and the override mark
set. -/
theorem apply_top_n_mutates_caller :
    ranked_after_call 2 [volvStock] 3 "half" ≠ [volvStock] := by decide

/-- Claim C9 amended: `apply_top_n_override` returns a list of the same
length whose records keep their identity fields (ticker, score) — only the
`recommended_size` / override fields change — but those records are shared
with the caller, so the updates are visible through the original
`ranked_candidates` list after the call. -/
theorem apply_top_n_preserves_identity (max_per_sector : ℕ)
    (ranked_stocks : List Stock) (top_n : ℕ) (min_size : String) :
    (ranked_after_call max_per_sector ranked_stocks top_n min_size).map
        (fun s => (s.ticker, s.score))
      = ranked_stocks.map (fun s => (s.ticker, s.score)) := by
  show (apply_top_n_aux max_per_sector top_n min_size ranked_stocks (fun _ => 0) 0).1.map
        (fun s => (s.ticker, s.score)) = _
  generalize (fun _ => (0:ℕ) : String → ℕ) = counts
  generalize (0:ℕ) = applied
  induction ranked_stocks generalizing counts applied with
  | nil => rfl
  | cons s rest ih =>
    by_cases hbreak : top_n ≤ applied
    · simp [apply_top_n_aux, hbreak]
    · by_cases hcap : max_per_sector ≤ counts (get_sector s.ticker)
      · simp only [apply_top_n_aux, if_neg hbreak, if_pos hcap, List.map_cons]
        rw [ih]
      · by_cases hrank : size_rank s.recommended_size < size_rank min_size
        · simp only [apply_top_n_aux, if_neg hbreak, if_neg hcap, if_pos hrank,
            List.map_cons]
          rw [ih]
        · simp only [apply_top_n_aux, if_neg hbreak, if_neg hcap, if_neg hrank,
            List.map_cons]
          rw [ih]


/-! ## Claim C7 -/

/-- Invariant behind the sector cap: starting from any loop state, the
overrides the remaining candidates can still receive in a sector never
exceed what remains of that sector's budget
`max_per_sector - sector_counts[sector]`, provided no input record is
already marked. -/
lemma apply_top_n_aux_cap (max_per_sector top_n : ℕ) (min_size sec : String) :
    ∀ (l : List Stock) (counts : String → ℕ) (applied : ℕ),
      (∀ s ∈ l, s.top_n_override = false) →
      ((apply_top_n_aux max_per_sector top_n min_size l counts applied).1.countP
          (marked_in sec))
        ≤ max_per_sector - counts sec := by
  intro l
  induction l with
  | nil =>
    intro counts applied _
    simp [apply_top_n_aux]
  | cons s rest ih =>
    intro counts applied hfresh
    have hs : s.top_n_override = false := hfresh s (by simp)
    have hrest : ∀ x ∈ rest, x.top_n_override = false := by
      intro x hx
      exact hfresh x (List.mem_cons_of_mem s hx)
    have hps : marked_in sec s = false := by simp [marked_in, hs]
    by_cases hbreak : top_n ≤ applied
    · simp only [apply_top_n_aux, if_pos hbreak]
      have hz : (s :: rest).countP (marked_in sec) = 0 := by
        rw [List.countP_eq_zero]
        intro a ha
        simp [marked_in, hfresh a ha]
      rw [hz]
      exact Nat.zero_le _
    · by_cases hcap : max_per_sector ≤ counts (get_sector s.ticker)
      · simp only [apply_top_n_aux, if_neg hbreak, if_pos hcap,
          List.countP_cons, hps]
        simpa using ih counts applied hrest
      · have hih := ih (fun x => if x = get_sector s.ticker then counts x + 1
          else counts x) (applied + 1) hrest
        by_cases hsec : get_sector s.ticker = sec
        · have hc2 : (fun x => if x = get_sector s.ticker then counts x + 1
              else counts x) sec = counts sec + 1 := by simp [hsec]
          rw [hc2] at hih
          have hlt : counts sec < max_per_sector := hsec ▸ Nat.lt_of_not_le hcap
          have hbeqt : (get_sector s.ticker == sec) = true := by simp [hsec]
          by_cases hrank : size_rank s.recommended_size < size_rank min_size
          · simp only [apply_top_n_aux, if_neg hbreak, if_neg hcap, if_pos hrank,
              List.countP_cons]
            simp only [marked_in, hbeqt, Bool.true_and, if_true]
            omega
          · simp only [apply_top_n_aux, if_neg hbreak, if_neg hcap, if_neg hrank,
              List.countP_cons, hps]
            rw [if_neg Bool.false_ne_true]
            omega
        · have hc2 : (fun x => if x = get_sector s.ticker then counts x + 1
              else counts x) sec = counts sec := by simp [Ne.symm hsec]
          rw [hc2] at hih
          have hbeq : (get_sector s.ticker == sec) = false := by simp [hsec]
          by_cases hrank : size_rank s.recommended_size < size_rank min_size
          · simp only [apply_top_n_aux, if_neg hbreak, if_neg hcap, if_pos hrank,
              List.countP_cons]
            simp only [marked_in, hbeq, Bool.and_false]
            rw [if_neg Bool.false_ne_true]
            omega
          · simp only [apply_top_n_aux, if_neg hbreak, if_neg hcap, if_neg hrank,
              List.countP_cons, hps]
            rw [if_neg Bool.false_ne_true]
            omega

/-- Claim C7: starting from a fresh (unmarked) ranked list, after
`apply_top_n_override` no sector carries more than `max_per_sector`
override marks; and a candidate skipped because its sector is at the cap
is left unchanged and does not consume a `top_n` slot (the `top_n_applied`
counter passes through unchanged). -/
theorem top_n_sector_cap (max_per_sector top_n : ℕ) (min_size : String)
    (ranked_stocks : List Stock) (sec : String)
    (hfresh : ∀ s ∈ ranked_stocks, s.top_n_override = false) :
    ((apply_top_n_override max_per_sector ranked_stocks top_n min_size).countP
        (marked_in sec))
      ≤ max_per_sector
    ∧ (∀ (s : Stock) (rest : List Stock) (counts : String → ℕ) (applied : ℕ),
        applied < top_n → max_per_sector ≤ counts (get_sector s.ticker) →
        apply_top_n_aux max_per_sector top_n min_size (s :: rest) counts applied
          = (s :: (apply_top_n_aux max_per_sector top_n min_size rest counts applied).1,
             (apply_top_n_aux max_per_sector top_n min_size rest counts applied).2)) := by
  constructor
  · have h := apply_top_n_aux_cap max_per_sector top_n min_size sec
      ranked_stocks (fun _ => 0) 0 hfresh
    simpa [apply_top_n_override] using h
  · intro s rest counts applied h1 h2
    simp [apply_top_n_aux, Nat.not_le.mpr h1, h2]

/-- Witness for C7 on the demo universe (three Industrials, one Technology,
one Financials, all fresh at quarter size): at most 2 Industrials records
carry the override mark, and the third Industrials candidate (SKF-B, its
sector already at the cap after VOLV-B and ABB) is skipped unchanged with
the `top_n_applied` counter passed through. -/
theorem top_n_sector_cap_witness :
    ((apply_top_n_override 2 rankedFive 3 "half").countP (marked_in "Industrials")) ≤ 2
    ∧ apply_top_n_aux 2 3 "half"
        [{ ticker := "SKF-B", score := 7, recommended_size := "quarter",
           top_n_override := false, override_reason := none }]
        (fun x => if x = "Industrials" then 2 else 0) 2
      = ({ ticker := "SKF-B", score := 7, recommended_size := "quarter",
           top_n_override := false, override_reason := none }
          :: (apply_top_n_aux 2 3 "half" []
                (fun x => if x = "Industrials" then 2 else 0) 2).1,
         (apply_top_n_aux 2 3 "half" []
            (fun x => if x = "Industrials" then 2 else 0) 2).2) :=
  ⟨(top_n_sector_cap 2 3 "half" rankedFive "Industrials" (by decide)).1,
   (top_n_sector_cap 2 3 "half" rankedFive "Industrials" (by decide)).2
     { ticker := "SKF-B", score := 7, recommended_size := "quarter",
       top_n_override := false, override_reason := none }
     [] (fun x => if x = "Industrials" then 2 else 0) 2
     (by decide) (by decide)⟩

/-! ## Claim C5 -/

/-- Python's integer round stays within `[0, B]` when its argument does. -/
lemma roundHalfEven_bounds {x : ℚ} {B : ℤ} (h0 : 0 ≤ x) (hB : x ≤ (B : ℚ)) :
    0 ≤ roundHalfEven x ∧ roundHalfEven x ≤ B := by
  have hf0 : 0 ≤ ⌊x⌋ := Int.floor_nonneg.mpr h0
  have hfB : ⌊x⌋ ≤ B := by
    have h := Int.floor_le_floor hB
    simpa using h
  have hfx : (⌊x⌋ : ℚ) ≤ x := Int.floor_le x
  unfold roundHalfEven
  dsimp only
  split_ifs with h1 h2 h3
  · exact ⟨hf0, hfB⟩
  · refine ⟨by omega, ?_⟩
    have hlt : (⌊x⌋ : ℚ) < (B : ℚ) := by linarith
    have : ⌊x⌋ < B := by exact_mod_cast hlt
    omega
  · exact ⟨hf0, hfB⟩
  · refine ⟨by omega, ?_⟩
    have hhalf : (1 : ℚ)/2 ≤ x - (⌊x⌋ : ℚ) := le_of_not_lt h1
    have hlt : (⌊x⌋ : ℚ) < (B : ℚ) := by linarith
    have : ⌊x⌋ < B := by exact_mod_cast hlt
    omega

/-- Python's `round(x, 1)` stays within `[0, 100]` when `x` does. -/
lemma pyround1_bounds {x : ℚ} (h0 : 0 ≤ x) (h1 : x ≤ 100) :
    0 ≤ pyround1 x ∧ pyround1 x ≤ 100 := by
  have h := roundHalfEven_bounds (x := 10 * x) (B := 1000)
    (by linarith) (by push_cast; linarith)
  have hl : (0 : ℚ) ≤ (roundHalfEven (10 * x) : ℚ) := by exact_mod_cast h.1
  have hu : (roundHalfEven (10 * x) : ℚ) ≤ 1000 := by exact_mod_cast h.2
  unfold pyround1
  constructor
  · linarith
  · linarith

/-- The double clamp of `calculate_confidence` lands in `[0, 100]`. -/
lemma clamp_bounds (y : ℚ) : 0 ≤ max 0 (min 100 y) ∧ max 0 (min 100 y) ≤ 100 :=
  ⟨le_max_left _ _, max_le (by norm_num) (min_le_left _ _)⟩

/-- The confidence component of `calculate_confidence`, written out. -/
lemma confidence_val (b : ℚ) (v : Option ℚ) (sp : Option SpxTrend)
    (mr : Option String) (ms : Option ℚ) (sd : Option Sentiment) :
    (calculate_confidence b v sp mr ms sd).confidence
      = pyround1 (max 0 (min 100 (max 0 (min 100 (((b + 10) / 20) * 100))
          + ((vix_adjustment v).1 + (spx_adjustment sp).1 + (regime_adjustment mr).1
             + (macro_adjustment ms).1 + (sentiment_adjustment sd).1)))) := rfl

/-- Claim C5 counterexample: with every optional input None and
base_score = 1/500 (= 0.002), the linear remap is 50.01 but the function
returns `round(50.01, 1) = 50`: the returned confidence does not equal the
remap exactly. -/
theorem confidence_not_exact_remap :
    (calculate_confidence (1/500) none none none none none).confidence
      ≠ (((1/500 : ℚ) + 10) / 20) * 100 := by
  norm_num [calculate_confidence, vix_adjustment, spx_adjustment, regime_adjustment,
    macro_adjustment, sentiment_adjustment, pyround1, roundHalfEven]

/-- Claim C5 amended: the returned confidence lies in `[0, 100]` for every
input combination; and with all optional inputs None (no adjustment
applied) it equals the linear remap of base_score from `[-10, 10]` to
`[0, 100]` rounded to one decimal (Python's `round(x, 1)`) — hence the
exact remap whenever the remap is a multiple of 0.1. -/
theorem confidence_bounded_allnone_rounded :
    (∀ (b : ℚ) (v : Option ℚ) (sp : Option SpxTrend) (mr : Option String)
        (ms : Option ℚ) (sd : Option Sentiment),
      0 ≤ (calculate_confidence b v sp mr ms sd).confidence
      ∧ (calculate_confidence b v sp mr ms sd).confidence ≤ 100)
    ∧ (∀ b : ℚ, -10 ≤ b → b ≤ 10 →
        (calculate_confidence b none none none none none).confidence
          = pyround1 (((b + 10) / 20) * 100)) := by
  constructor
  · intro b v sp mr ms sd
    rw [confidence_val]
    exact pyround1_bounds (clamp_bounds _).1 (clamp_bounds _).2
  · intro b hl hu
    have h0 : (0 : ℚ) ≤ ((b + 10) / 20) * 100 := by linarith
    have h100 : ((b + 10) / 20) * 100 ≤ 100 := by linarith
    rw [confidence_val]
    simp only [vix_adjustment, spx_adjustment, regime_adjustment, macro_adjustment,
      sentiment_adjustment, add_zero, zero_add]
    rw [min_eq_right h100, max_eq_right h0, min_eq_right h100, max_eq_right h0]

/-- Witness for C5: a concrete adverse-input confidence stays in `[0, 100]`,
and the all-None confidence at base_score 4 is the rounded remap. -/
theorem confidence_bounded_allnone_witness :
    (0 ≤ (calculate_confidence 6 (some 32) none (some "bearish") (some (7/2)) none).confidence
      ∧ (calculate_confidence 6 (some 32) none (some "bearish") (some (7/2)) none).confidence ≤ 100)
    ∧ (calculate_confidence 4 none none none none none).confidence
        = pyround1 (((4 + 10) / 20) * 100) :=
  ⟨confidence_bounded_allnone_rounded.1 6 (some 32) none (some "bearish") (some (7/2)) none,
   confidence_bounded_allnone_rounded.2 4 (by norm_num) (by norm_num)⟩

/-! ## Claim C4 -/

/-- Claim C4: on any tick of an open position with remaining shares, a price
at or below the stop sells 100% of the remaining quantity with reason
STOP_LOSS and closes the position — with no hypothesis on the targets or
the tranche stage, because the stop branch is evaluated first and pre-empts
every target branch; and any tick records at most one exit trade. -/
theorem stop_hit_preempts (slippage commission : ℚ) (st : BTState)
    (position : BTPosition) (price : ℚ)
    (hpos : st.position = some position)
    (hsh : 0 < position.shares)
    (hstop : price ≤ position.stop_loss) :
    bt_check_exits slippage commission st price =
      { position := none,
        capital := st.capital
          + (position.shares : ℚ) * (price * (1 - slippage)) * (1 - commission),
        trades := st.trades ++
          [{ shares := position.shares, entry_price := position.entry_price,
             exit_price := price * (1 - slippage),
             pnl := (position.shares : ℚ) * (price * (1 - slippage)) * (1 - commission)
               - (position.shares : ℚ) * position.entry_price,
             pnl_percent := (((position.shares : ℚ) * (price * (1 - slippage)) * (1 - commission)
               - (position.shares : ℚ) * position.entry_price)
               / ((position.shares : ℚ) * position.entry_price)) * 100,
             reason := "STOP_LOSS" }] }
    ∧ (∀ (st2 : BTState) (p2 : ℚ),
        (bt_check_exits slippage commission st2 p2).trades.length
          ≤ st2.trades.length + 1) := by
  constructor
  · simp only [bt_check_exits, hpos, exit_decision, if_pos hstop, if_pos hsh,
      bt_execute_exit, Nat.sub_self]
    simp
  · intro st2 p2
    rcases hp : st2.position with _ | pos2
    · simp [bt_check_exits, hp]
    · rcases hd : exit_decision slippage pos2 p2 with _ | ⟨n, r, ep⟩
      · simp [bt_check_exits, hp, hd]
      · by_cases hn : 0 < n
        · simp [bt_check_exits, hp, hd, hn, bt_execute_exit]
        · simp [bt_check_exits, hp, hd, hn]

/-- Witness for C4: the spec scenario — price drops to 269 before any
target, the full 300 shares are sold with reason STOP_LOSS and the
position closes; a tick at 280 records at most one trade. -/
theorem stop_hit_preempts_witness :
    bt_check_exits 0 0 sampleState 269 =
      { position := none,
        capital := sampleState.capital
          + (samplePos.shares : ℚ) * (269 * (1 - 0)) * (1 - 0),
        trades := sampleState.trades ++
          [{ shares := samplePos.shares, entry_price := samplePos.entry_price,
             exit_price := 269 * (1 - 0),
             pnl := (samplePos.shares : ℚ) * (269 * (1 - 0)) * (1 - 0)
               - (samplePos.shares : ℚ) * samplePos.entry_price,
             pnl_percent := (((samplePos.shares : ℚ) * (269 * (1 - 0)) * (1 - 0)
               - (samplePos.shares : ℚ) * samplePos.entry_price)
               / ((samplePos.shares : ℚ) * samplePos.entry_price)) * 100,
             reason := "STOP_LOSS" }] }
    ∧ (bt_check_exits 0 0 sampleState 280).trades.length
        ≤ sampleState.trades.length + 1 :=
  ⟨(stop_hit_preempts 0 0 sampleState samplePos 269 rfl (by decide) (by decide)).1,
   (stop_hit_preempts 0 0 sampleState samplePos 269 rfl (by decide) (by decide)).2
     sampleState 280⟩

/-! ## Claim C1 -/

/-- Claim C1 counterexample: the spec scenario (entry 278, stop 270,
target_1 290, 300 shares, price path [280, 292, 295]). After the tick at
292 exactly 100 shares are sold with reason TARGET_1 and 200 remain — but
the stop_loss stays at 270, strictly below the 278 entry price: the
TARGET_1 transition does not raise the stop to break-even. -/
theorem target1_leaves_stop_at_270 :
    (bt_apply_ticks 0 0 sampleState [280, 292, 295]).trades.map
        (fun t => (t.shares, t.reason)) = [(100, "TARGET_1")]
    ∧ (bt_apply_ticks 0 0 sampleState [280, 292, 295]).position.map
        (fun p => p.shares) = some 200
    ∧ (bt_apply_ticks 0 0 sampleState [280, 292, 295]).position.map
        (fun p => p.stop_loss) = some 270
    ∧ ¬ ((278 : ℚ) ≤ 270) :=
  ⟨by decide, by decide, by decide, by decide⟩

/-- Claim C1 amended: when the tick price reaches target_1 (and no stop or
higher target applies) while the remaining quantity still equals the
initial quantity, the backtester sells ⌊initial/3⌋ shares with reason
TARGET_1 — and the transition leaves stop_loss unchanged (it is not
ratcheted to entry price; in TradeManager the corresponding notification
merely carries `new_stop = entry_price` as an instruction). -/
theorem target1_sells_third_keeps_stop (slippage commission : ℚ)
    (st : BTState) (position : BTPosition) (price : ℚ)
    (hpos : st.position = some position)
    (hstop : position.stop_loss < price)
    (ht2 : price < position.target_2)
    (ht3 : price < position.target_3)
    (ht1 : position.target_1 ≤ price)
    (hfull : position.shares = position.initial_shares)
    (hmin : 3 ≤ position.initial_shares) :
    bt_check_exits slippage commission st price =
      { position := some { position with
          shares := position.initial_shares - position.initial_shares / 3 },
        capital := st.capital
          + ((position.initial_shares / 3 : ℕ) : ℚ) * (price * (1 - slippage)) * (1 - commission),
        trades := st.trades ++
          [{ shares := position.initial_shares / 3,
             entry_price := position.entry_price,
             exit_price := price * (1 - slippage),
             pnl := ((position.initial_shares / 3 : ℕ) : ℚ) * (price * (1 - slippage)) * (1 - commission)
               - ((position.initial_shares / 3 : ℕ) : ℚ) * position.entry_price,
             pnl_percent := ((((position.initial_shares / 3 : ℕ) : ℚ) * (price * (1 - slippage)) * (1 - commission)
               - ((position.initial_shares / 3 : ℕ) : ℚ) * position.entry_price)
               / (((position.initial_shares / 3 : ℕ) : ℚ) * position.entry_price)) * 100,
             reason := "TARGET_1" }] }
    ∧ ({ position with
          shares := position.initial_shares - position.initial_shares / 3 }
            : BTPosition).stop_loss = position.stop_loss := by
  have hns : ¬ (price ≤ position.stop_loss) := not_le.mpr hstop
  have hn3 : ¬ (position.target_3 ≤ price ∧ 0 < position.shares) :=
    fun h => absurd h.1 (not_le.mpr ht3)
  have hn2 : ¬ (position.target_2 ≤ price
      ∧ ((position.initial_shares : ℚ) * 2 / 3 ≤ (position.shares : ℚ))) :=
    fun h => absurd h.1 (not_le.mpr ht2)
  have h1 : position.target_1 ≤ price ∧ position.shares = position.initial_shares :=
    ⟨ht1, hfull⟩
  have hshpos : 0 < position.initial_shares / 3 := Nat.div_pos hmin (by norm_num)
  have hne : position.initial_shares - position.initial_shares / 3 ≠ 0 := by omega
  have hdec : exit_decision slippage position price
      = some (position.initial_shares / 3, "TARGET_1", price * (1 - slippage)) := by
    unfold exit_decision
    rw [if_neg hns, if_neg hn3, if_neg hn2, if_pos h1]
  constructor
  · simp only [bt_check_exits, hpos, hdec, if_pos hshpos, bt_execute_exit]
    rw [hfull, if_neg hne]
  · rfl

/-- Witness for C1 (amended) at the spec scenario tick 292: 100 of 300
shares sold with reason TARGET_1, stop still 270. -/
theorem target1_sells_third_keeps_stop_witness :
    bt_check_exits 0 0 sampleState 292 =
      { position := some { samplePos with
          shares := samplePos.initial_shares - samplePos.initial_shares / 3 },
        capital := sampleState.capital
          + ((samplePos.initial_shares / 3 : ℕ) : ℚ) * (292 * (1 - 0)) * (1 - 0),
        trades := sampleState.trades ++
          [{ shares := samplePos.initial_shares / 3,
             entry_price := samplePos.entry_price,
             exit_price := 292 * (1 - 0),
             pnl := ((samplePos.initial_shares / 3 : ℕ) : ℚ) * (292 * (1 - 0)) * (1 - 0)
               - ((samplePos.initial_shares / 3 : ℕ) : ℚ) * samplePos.entry_price,
             pnl_percent := ((((samplePos.initial_shares / 3 : ℕ) : ℚ) * (292 * (1 - 0)) * (1 - 0)
               - ((samplePos.initial_shares / 3 : ℕ) : ℚ) * samplePos.entry_price)
               / (((samplePos.initial_shares / 3 : ℕ) : ℚ) * samplePos.entry_price)) * 100,
             reason := "TARGET_1" }] }
    ∧ ({ samplePos with
          shares := samplePos.initial_shares - samplePos.initial_shares / 3 }
            : BTPosition).stop_loss = samplePos.stop_loss :=
  target1_sells_third_keeps_stop 0 0 sampleState samplePos 292 rfl
    (by decide) (by decide) (by decide) (by decide) (by decide) (by decide)

/-! ## Claim C2 -/

/-- Claim C2 counterexample: with the scenario position (300 shares, no
tranche sold) and two ticks at 305 (at or above target_2 = 300, below
target_3 = 320), the backtester records a TARGET_2 exit on the very first
tick — before any TARGET_1 tranche — and a second TARGET_2 exit on the
next tick, selling the tranche twice (100 + 100 shares, 100 remain). -/
theorem target2_fires_first_and_twice :
    (bt_apply_ticks 0 0 sampleState [305, 305]).trades.map
        (fun t => (t.shares, t.reason)) = [(100, "TARGET_2"), (100, "TARGET_2")]
    ∧ (bt_apply_ticks 0 0 sampleState [305, 305]).position.map
        (fun p => p.shares) = some 100 := by
  constructor <;>
    norm_num [bt_apply_ticks, bt_check_exits, exit_decision, bt_execute_exit,
      sampleState, samplePos]

/-- Claim C2 amended: the quantity guards that do hold — a TARGET_1 exit
decision fires only while the remaining quantity equals the initial
quantity, and a TARGET_2 exit decision fires only while the remaining
quantity is at least ⅔ of the initial quantity (which is already true
before any tranche is sold, so TARGET_2 may fire before TARGET_1 and may
fire twice). -/
theorem exit_guards (slippage : ℚ) (position : BTPosition) (price : ℚ)
    (n : ℕ) (r : String) (ep : ℚ)
    (h : exit_decision slippage position price = some (n, r, ep)) :
    (r = "TARGET_1" → position.shares = position.initial_shares)
    ∧ (r = "TARGET_2" →
        (position.initial_shares : ℚ) * 2 / 3 ≤ (position.shares : ℚ)) := by
  unfold exit_decision at h
  split_ifs at h with h1 h2 h3 h4
  · simp only [Option.some.injEq, Prod.mk.injEq] at h
    obtain ⟨-, hr, -⟩ := h
    subst hr
    exact ⟨fun hx => by simp at hx, fun hx => by simp at hx⟩
  · simp only [Option.some.injEq, Prod.mk.injEq] at h
    obtain ⟨-, hr, -⟩ := h
    subst hr
    exact ⟨fun hx => by simp at hx, fun hx => by simp at hx⟩
  · simp only [Option.some.injEq, Prod.mk.injEq] at h
    obtain ⟨-, hr, -⟩ := h
    subst hr
    exact ⟨fun hx => by simp at hx, fun _ => h3.2⟩
  · simp only [Option.some.injEq, Prod.mk.injEq] at h
    obtain ⟨-, hr, -⟩ := h
    subst hr
    exact ⟨fun _ => h4.2, fun hx => by simp at hx⟩

/-- Witness for C2 (amended): the TARGET_1 decision at tick 292 of the
scenario position comes with full remaining quantity. -/
theorem exit_guards_witness :
    ("TARGET_1" = "TARGET_1" → samplePos.shares = samplePos.initial_shares)
    ∧ ("TARGET_1" = "TARGET_2" →
        (samplePos.initial_shares : ℚ) * 2 / 3 ≤ (samplePos.shares : ℚ)) :=
  exit_guards 0 samplePos 292 100 "TARGET_1" (292 * (1 - 0))
    (by norm_num [exit_decision, samplePos])
